import Mathlib

/-!
Verification of the PSS/E raw-file parser `psse2case.py` of PYPOWER.

The Python source is shallowly embedded: every section reader becomes a
Lean function over a list of delimited rows, the shared stream cursor
becomes explicit row-list threading, numpy float cells become rationals,
Python exceptions become an `Err` value in an `Except`, and calls to the
logging collaborator are collected in a list of `LogEvent`s.
-/

namespace PYPOWER

/-- Severity of a log call (`logger.info` / `logger.warning` / `logger.error`). -/
inductive Level
  | info
  | warning
  | error
deriving DecidableEq, Repr

/-- The distinct messages the source emits through the `logging` collaborator,
with the data that the claims care about. -/
inductive LogKind
  | loadingFile
  | openError
  | commaDelim
  | spaceDelim
  | versionAssumed (v : Int)
  | versionFound (v : Int)
  | versionUnsupported (v : Int)
  | busesFound (n : Nat)
  | loadsFound (n : Nat)
  | gensFound (n : Nat)
  | branchesFound (n : Nat)
  | busNotFound (i : String)
  | currentLoadIgnored (i : String)
  | yLoadIgnored (i : String)
  | notRescaled (i : String)
deriving DecidableEq, Repr

/-- One emitted log event. -/
structure LogEvent where
  level : Level
  kind : LogKind
deriving DecidableEq, Repr

/-- Python exceptions that the embedded code can raise.  `assertionError` is
raised by the `assert` in `_parse_header`; the spec names that structural
failure `FormatError`. -/
inductive Err
  | stopIteration
  | assertionError
  | valueError
  | indexError
  | typeError
  | attributeError
deriving DecidableEq, Repr

instance exceptDecEq {ε α : Type} [DecidableEq ε] [DecidableEq α] :
    DecidableEq (Except ε α)
  | Except.error e, Except.error f =>
    if h : e = f then isTrue (h ▸ rfl)
    else isFalse (fun c => h (Except.error.inj c))
  | Except.error _, Except.ok _ => isFalse (fun c => Except.noConfusion c)
  | Except.ok _, Except.error _ => isFalse (fun c => Except.noConfusion c)
  | Except.ok a, Except.ok b =>
    if h : a = b then isTrue (h ▸ rfl)
    else isFalse (fun c => h (Except.ok.inj c))

/-- Result of running a piece of the parser: the log events it emitted (in
order, kept even when an exception follows them) and either a value or the
Python exception that aborted it. -/
abbrev P (α : Type) : Type := List LogEvent × Except Err α

/-- Return a value, emitting nothing. -/
def ppure {α : Type} (a : α) : P α := ([], Except.ok a)

/-- Raise a Python exception. -/
def pthrow {α : Type} (e : Err) : P α := ([], Except.error e)

/-- Emit one log event. -/
def plog (lv : Level) (k : LogKind) : P Unit := ([⟨lv, k⟩], Except.ok ())

/-- Sequencing: logs accumulate left to right; an exception short-circuits. -/
def pbind {α β : Type} (x : P α) (f : α → P β) : P β :=
  match x with
  | (l, Except.error e) => (l, Except.error e)
  | (l, Except.ok a) => (l ++ (f a).1, (f a).2)


/-- Rows as the `csv.reader` yields them: a list of string fields. -/
abbrev Row := List String

/-- The stream position: the rows not yet consumed. -/
abbrev Rows := List Row

/-- A numeric table (one of the numpy matrices), row major. -/
abbrev Table := List (List ℚ)

/-- The bus index dict, insertion ordered with unique keys (Python `dict`). -/
abbrev BMap := List (String × ℕ)

/-- Python `dict` assignment `m[k] = v`: overwrite in place if the key is
present, otherwise append a fresh entry. -/
def dset (m : BMap) (k : String) (v : ℕ) : BMap :=
  if (m.lookup k).isSome then
    m.map (fun p => if p.1 = k then (k, v) else p)
  else
    m ++ [(k, v)]

/-- The apostrophe character that PSS/E quotes bus names with. -/
def quoteChar : Char := Char.ofNat 39

/-- Python `s.strip(quote)`: drop leading and trailing quote characters. -/
def stripQuote (s : String) : String :=
  String.mk (((s.data.dropWhile (fun c => c = quoteChar)).reverse.dropWhile
    (fun c => c = quoteChar)).reverse)

/-- Whitespace as Python `str.strip()` sees it. -/
def isSpaceChar (c : Char) : Bool := c.toNat = 32 || (9 ≤ c.toNat && c.toNat ≤ 13)

/-- Python `s.strip()`: drop surrounding whitespace. -/
def pyStrip (s : String) : String :=
  String.mk (((s.data.dropWhile (fun c => isSpaceChar c)).reverse.dropWhile
    (fun c => isSpaceChar c)).reverse)

/-- Python `s.split(sep)` for a one-character separator. -/
def splitCharGo (sep : Char) : List Char → List Char → List String
  | [], cur => [String.mk cur.reverse]
  | c :: cs, cur =>
    if c = sep then String.mk cur.reverse :: splitCharGo sep cs []
    else splitCharGo sep cs (c :: cur)

/-- Python `s.split(sep)` on a whole string. -/
def splitChar (sep : Char) (s : String) : List String := splitCharGo sep s.data []

/-- Python `c in s` for a one-character needle. -/
def strContains (s : String) (c : Char) : Bool := s.data.any (fun x => x = c)

/-- Python `s.split("/")[0].strip()`, the terminator test normalisation. -/
def termField (s : String) : String := pyStrip ((splitChar '/' s).headD "")

/-- Numeric value of a digit string. -/
def digitsToNat (cs : List Char) : ℕ :=
  cs.foldl (fun a c => 10 * a + (c.toNat - 48)) 0

/-- Model of Python `int(s)` on the strings the format uses: optional sign,
then digits, surrounding whitespace allowed; `none` when `int` would raise
`ValueError`. -/
def pyInt? (s : String) : Option ℤ :=
  let cs := (pyStrip s).data
  let sgn : Bool × List Char :=
    match cs with
    | '-' :: r => (true, r)
    | '+' :: r => (false, r)
    | r => (false, r)
  if !sgn.2.isEmpty && sgn.2.all Char.isDigit then
    some (if sgn.1 then -(digitsToNat sgn.2 : ℤ) else (digitsToNat sgn.2 : ℤ))
  else none

/-- Model of Python `float(s)` on the decimal literals the format uses:
optional sign, integer digits, optional point and fraction digits,
surrounding whitespace allowed; `none` when `float` would raise
`ValueError`.  The numeric value is kept exactly, as a rational:
the digits before and after the point, read together, over a power of
ten. -/
def pyFloat? (s : String) : Option ℚ :=
  let cs := (pyStrip s).data
  let sgn : Bool × List Char :=
    match cs with
    | '-' :: r => (true, r)
    | '+' :: r => (false, r)
    | r => (false, r)
  let ip := sgn.2.takeWhile Char.isDigit
  let r2 := sgn.2.dropWhile Char.isDigit
  let val? : Option ℚ :=
    match r2 with
    | [] => if ip.isEmpty then none else some (mkRat (digitsToNat ip : ℤ) 1)
    | '.' :: r3 =>
      let fp := r3.takeWhile Char.isDigit
      let r4 := r3.dropWhile Char.isDigit
      if r4.isEmpty && (!ip.isEmpty || !fp.isEmpty) then
        some (mkRat (digitsToNat (ip ++ fp) : ℤ) (10 ^ fp.length))
      else none
    | _ => none
  match val? with
  | some q => some (if sgn.1 then -q else q)
  | none => none

/-- Python `row[i]`: `IndexError` when out of range. -/
def getf (r : Row) (i : ℕ) : P String :=
  match r.get? i with
  | some s => ppure s
  | none => pthrow Err.indexError

/-- `float(s)` inside the parser: `ValueError` on bad input. -/
def tofloat (s : String) : P ℚ :=
  match pyFloat? s with
  | some q => ppure q
  | none => pthrow Err.valueError

/-- `int(s)` inside the parser: `ValueError` on bad input. -/
def toint (s : String) : P ℤ :=
  match pyInt? s with
  | some n => ppure n
  | none => pthrow Err.valueError

/-- `reader.next()`: the next row, or `StopIteration` at end of stream. -/
def next (rows : Rows) : P (Row × Rows) :=
  match rows with
  | [] => pthrow Err.stopIteration
  | r :: rs => ppure (r, rs)

/-- Exception-only variants for the pure record builders (no logging there). -/
def egetf (r : Row) (i : ℕ) : Except Err String :=
  match r.get? i with
  | some s => Except.ok s
  | none => Except.error Err.indexError

/-- `float(s)` in the exception-only context. -/
def etofloat (s : String) : Except Err ℚ :=
  match pyFloat? s with
  | some q => Except.ok q
  | none => Except.error Err.valueError

/-- `int(s)` in the exception-only context. -/
def etoint (s : String) : Except Err ℤ :=
  match pyInt? s with
  | some n => Except.ok n
  | none => Except.error Err.valueError

/-- `DEFAULT_VERSION = 30`. -/
def DEFAULT_VERSION : ℤ := 30

/-- `SUPPORTED_VERSIONS = [29, 30, 31, 32]`. -/
def SUPPORTED_VERSIONS : List ℤ := [29, 30, 31, 32]

/-- `csv.reader(..., delimiter=d, skipinitialspace=True)` applied to one line:
split on the delimiter, discarding spaces that immediately follow a
delimiter.  An empty line yields no fields, as with `csv`. -/
def csvSplitGo (d : Char) : List Char → List Char → Bool → List String
  | [], cur, _ => [String.mk cur.reverse]
  | c :: cs, cur, skip =>
    if skip ∧ c = ' ' then csvSplitGo d cs cur skip
    else if c = d then String.mk cur.reverse :: csvSplitGo d cs [] true
    else csvSplitGo d cs (c :: cur) false

/-- Split one raw line into fields. -/
def csvSplit (d : Char) (line : String) : List String :=
  if line = "" then [] else csvSplitGo d line.data [] false

/-- `_delimiter(fd)`: look at the first raw line (its part before any `/`
comment); a comma there means comma-delimited, otherwise whitespace. -/
def _delimiter (lines : List String) : P Char :=
  match lines with
  | [] => pthrow Err.stopIteration
  | l :: _ =>
    if strContains ((splitChar '/' l).headD "") ',' then
      pbind (plog Level.info LogKind.commaDelim) fun _ => ppure ','
    else
      pbind (plog Level.info LogKind.spaceDelim) fun _ => ppure ' '

/-- `int(h0[2].split("/")[0].strip())` when the field carries a `/` comment,
else `int(h0[2])`. -/
def versionField (f : String) : P ℤ :=
  if strContains f '/' then toint (termField f) else toint f

/-- `_version(fd, delimiter)`: read the first line through the csv reader;
fewer than 3 fields means the default revision; otherwise parse the third
field (comment-stripped), falling back to the default when the parsed
revision is unsupported. -/
def _version (lines : List String) (d : Char) : P ℤ :=
  match lines with
  | [] => pthrow Err.stopIteration
  | l :: _ =>
    let h0 := csvSplit d l
    if h0.length < 3 then
      pbind (plog Level.info (LogKind.versionAssumed DEFAULT_VERSION)) fun _ =>
        ppure DEFAULT_VERSION
    else
      pbind (getf h0 2) fun f =>
      pbind (versionField f) fun v =>
      pbind (plog Level.info (LogKind.versionFound v)) fun _ =>
      if v ∈ SUPPORTED_VERSIONS then ppure v
      else
        pbind (plog Level.warning (LogKind.versionUnsupported v)) fun _ =>
          ppure DEFAULT_VERSION

/-- `_parse_header(reader)`: read three rows, check `h0[0]` is `"0"` or
`"1"` (the `assert`, which the spec calls `FormatError`), return
`float(h0[1])`. -/
def _parse_header (rows : Rows) : P (ℚ × Rows) :=
  pbind (next rows) fun p1 =>
  pbind (next p1.2) fun p2 =>
  pbind (next p2.2) fun p3 =>
  pbind (getf p1.1 0) fun f0 =>
  if f0 = "0" ∨ f0 = "1" then
    pbind (getf p1.1 1) fun s =>
    pbind (tofloat s) fun b =>
    ppure (b, p3.2)
  else pthrow Err.assertionError

/-- The numeric part of one bus data row (`bus = zeros((1, buscol))` plus the
per-revision field assignments). -/
def busRec (version : ℤ) (busdata : Row) : Except Err (List ℚ) := do
  let bus0 : List ℚ := List.replicate 13 0
  let i ← egetf busdata 0
  let iv ← etoint i
  let ty ← etofloat (← egetf busdata 3)
  let base := (((bus0.set 0 (iv : ℚ)).set 1 ty).set 2 0).set 3 0
  let withRev ←
    if version = 29 ∨ version = 30 then do
      let gs ← etofloat (← egetf busdata 4)
      let bs ← etofloat (← egetf busdata 5)
      let area ← etoint (← egetf busdata 6)
      let vm ← etofloat (← egetf busdata 8)
      let va ← etofloat (← egetf busdata 9)
      let zone ← etofloat (← egetf busdata 7)
      pure ((((((base.set 4 gs).set 5 bs).set 6 (area : ℚ)).set 7 vm).set 8 va).set 10 zone)
    else if version = 31 ∨ version = 32 then do
      let area ← etoint (← egetf busdata 4)
      let vm ← etofloat (← egetf busdata 7)
      let va ← etofloat (← egetf busdata 8)
      let zone ← etofloat (← egetf busdata 5)
      pure ((((base.set 6 (area : ℚ)).set 7 vm).set 8 va).set 10 zone)
    else pure base
  let kv ← etofloat (← egetf busdata 2)
  pure (((withRev.set 9 kv).set 11 (mkRat 11 10)).set 12 (mkRat 9 10))

/-- One bus data row: register id and quote-stripped name in the bus map
under the current index `c`, then build the numeric record. -/
def busStep (version : ℤ) (busdata : Row) (c : ℕ) (m : BMap) : P (List ℚ × BMap) :=
  pbind (getf busdata 0) fun i =>
  pbind (getf busdata 1) fun f1 =>
  let name := stripQuote f1
  let m2 := dset (dset m i c) name c
  match busRec version busdata with
  | Except.ok rec => ppure (rec, m2)
  | Except.error e => pthrow e

/-- The bus section loop: rows until a terminator whose comment-stripped
first field is `"0"`; each data row appends one record and two map entries. -/
def parseBusesGo (version : ℤ) (stream : Rows) (c : ℕ) (acc : Table) (m : BMap) :
    P (Table × BMap × Rows) :=
  match stream with
  | [] => pthrow Err.stopIteration
  | busdata :: rows =>
    pbind (getf busdata 0) fun f =>
    if termField f = "0" then
      pbind (plog Level.info (LogKind.busesFound c)) fun _ => ppure (acc, m, rows)
    else
      pbind (busStep version busdata c m) fun bm =>
        parseBusesGo version rows (c + 1) (acc ++ [bm.1]) bm.2

/-- `_parse_buses(reader, version)`. -/
def _parse_buses (rows : Rows) (version : ℤ) : P (Table × BMap × Rows) :=
  parseBusesGo version rows 0 [] []

instance : DecidableEq (Except Err (Table × BMap × Rows)) :=
  @exceptDecEq Err (Table × BMap × Rows) inferInstance instDecidableEqProd

/-- `_busidx(i, busmap)`: strip quotes, look the id up, log an error-level
event when it is absent. -/
def _busidx (i : String) (busmap : BMap) : P (Option ℕ) :=
  let i2 := stripQuote i
  match busmap.lookup i2 with
  | some c => ppure (some c)
  | none => pbind (plog Level.error (LogKind.busNotFound i2)) fun _ => ppure none

/-- numpy in-place cell assignment `t[i, j] = v`. -/
def tset (t : Table) (i j : ℕ) (v : ℚ) : Table :=
  t.set i ((t.getD i []).set j v)

/-- One load data row.  `status = bool(loaddata[2])` is Python truthiness of
the raw string: any nonempty field counts as true.  An applied row
overwrites Pd/Qd of the resolved bus and may warn about constant-current
components, constant-Y components, or (revision 32, where the test
`(scale != 0.0) or (scale != 1.0)` is a tautology) unscaled components. -/
def loadStep (version : ℤ) (bus : Table) (m : BMap) (loaddata : Row) : P Table :=
  pbind (getf loaddata 2) fun s2 =>
  let status : Bool := s2 != ""
  pbind (getf loaddata 0) fun i =>
  pbind (_busidx i m) fun idx? =>
  match idx?, status with
  | some idx, true =>
    pbind (getf loaddata 5) fun s5 =>
    pbind (tofloat s5) fun pl =>
    pbind (getf loaddata 6) fun s6 =>
    pbind (tofloat s6) fun ql =>
    let bus2 := tset (tset bus idx 2 pl) idx 3 ql
    pbind (getf loaddata 7) fun s7 =>
    pbind (tofloat s7) fun ip =>
    pbind (getf loaddata 8) fun s8 =>
    pbind (tofloat s8) fun iq =>
    pbind (if ip ≠ 0 ∨ iq ≠ 0 then plog Level.warning (LogKind.currentLoadIgnored i)
           else ppure ()) fun _ =>
    pbind (getf loaddata 9) fun s9 =>
    pbind (tofloat s9) fun yp =>
    pbind (getf loaddata 10) fun s10 =>
    pbind (tofloat s10) fun yq =>
    pbind (if yp ≠ 0 ∨ yq ≠ 0 then plog Level.warning (LogKind.yLoadIgnored i)
           else ppure ()) fun _ =>
    pbind (if version = 32 then
             pbind (getf loaddata 12) fun s12 =>
             pbind (tofloat s12) fun scale =>
             if scale ≠ 0 ∨ scale ≠ 1 then plog Level.warning (LogKind.notRescaled i)
             else ppure ()
           else ppure ()) fun _ =>
    ppure bus2
  | _, _ => ppure bus

/-- The load section loop. -/
def parseLoadsGo (version : ℤ) (stream : Rows) (c : ℕ) (bus : Table) (m : BMap) :
    P (Table × Rows) :=
  match stream with
  | [] => pthrow Err.stopIteration
  | loaddata :: rows =>
    pbind (getf loaddata 0) fun f =>
    if termField f = "0" then
      pbind (plog Level.info (LogKind.loadsFound c)) fun _ => ppure (bus, rows)
    else
      pbind (loadStep version bus m loaddata) fun bus2 =>
        parseLoadsGo version rows (c + 1) bus2 m

/-- `_parse_loads(reader, bus, busmap, version)`; the in-place mutation of
the bus matrix is modeled by returning the updated table. -/
def _parse_loads (rows : Rows) (bus : Table) (busmap : BMap) (version : ℤ) :
    P (Table × Rows) :=
  parseLoadsGo version rows 0 bus busmap

/-- The numeric part of one generator row.  Note that the source never
assigns column 0 (the bus column of the output layout): it stays 0. -/
def genRec (gendata : Row) : Except Err (List ℚ) := do
  let g0 : List ℚ := List.replicate 21 0
  let pg ← etofloat (← egetf gendata 2)
  let qg ← etofloat (← egetf gendata 3)
  let qmax ← etofloat (← egetf gendata 4)
  let qmin ← etofloat (← egetf gendata 5)
  let vg ← etofloat (← egetf gendata 6)
  let mb ← etofloat (← egetf gendata 8)
  let st ← etofloat (← egetf gendata 14)
  let pmax ← etofloat (← egetf gendata 16)
  let pmin ← etofloat (← egetf gendata 17)
  pure (((((((((g0.set 1 pg).set 2 qg).set 3 qmax).set 4 qmin).set 5 vg).set 6 mb).set
    7 st).set 8 pmax).set 9 pmin)

/-- One generator data row: a record is appended whenever the bus id
resolves; the row status is stored but never tested. -/
def genStep (m : BMap) (gendata : Row) : P (Option (List ℚ)) :=
  pbind (getf gendata 0) fun i =>
  pbind (_busidx i m) fun idx? =>
  match idx? with
  | some _ =>
    (match genRec gendata with
     | Except.ok rec => ppure (some rec)
     | Except.error e => pthrow e)
  | none => ppure none

/-- The generator section loop. -/
def parseGensGo (stream : Rows) (c : ℕ) (acc : Table) (m : BMap) : P (Table × Rows) :=
  match stream with
  | [] => pthrow Err.stopIteration
  | gendata :: rows =>
    pbind (getf gendata 0) fun f =>
    if termField f = "0" then
      pbind (plog Level.info (LogKind.gensFound c)) fun _ => ppure (acc, rows)
    else
      pbind (genStep m gendata) fun rec? =>
        parseGensGo rows (c + 1)
          (acc ++ (match rec? with | some rec => [rec] | none => [])) m

/-- `_parse_generators(reader, busmap)` (the declared two-argument form). -/
def _parse_generators (rows : Rows) (busmap : BMap) : P (Table × Rows) :=
  parseGensGo rows 0 [] busmap

/-- numpy cell read `t[i, j]`. -/
def cell (t : Table) (i j : ℕ) : ℚ := (t.getD i []).getD j 0

/-- The numeric part of one non-transformer branch row.  The source stores
`bus[fbus, 0]` in the from column but `bus[tbus, 1]` — column 1, the type
code — in the to column. -/
def brchRec (bus : Table) (fbus tbus : ℕ) (brchdata : Row) : Except Err (List ℚ) := do
  let b0 : List ℚ := List.replicate 13 0
  let v0 := cell bus fbus 0
  let v1 := cell bus tbus 1
  let r ← etofloat (← egetf brchdata 3)
  let x ← etofloat (← egetf brchdata 4)
  let b ← etofloat (← egetf brchdata 5)
  let ra ← etofloat (← egetf brchdata 6)
  let rb ← etofloat (← egetf brchdata 7)
  let rc ← etofloat (← egetf brchdata 8)
  let st ← etofloat (← egetf brchdata 13)
  pure (((((((((((b0.set 0 v0).set 1 v1).set 2 r).set 3 x).set 4 b).set 5 ra).set
    6 rb).set 7 rc).set 10 st).set 11 (-360)).set 12 360)

/-- One branch data row: both endpoints must resolve for a record. -/
def brchStep (bus : Table) (m : BMap) (brchdata : Row) : P (Option (List ℚ)) :=
  pbind (getf brchdata 0) fun f0 =>
  pbind (_busidx f0 m) fun fb? =>
  pbind (getf brchdata 1) fun f1 =>
  pbind (_busidx f1 m) fun tb? =>
  match fb?, tb? with
  | some fb, some tb =>
    (match brchRec bus fb tb brchdata with
     | Except.ok rec => ppure (some rec)
     | Except.error e => pthrow e)
  | _, _ => ppure none

/-- The branch section loop. -/
def parseBrchGo (stream : Rows) (c : ℕ) (acc : Table) (bus : Table) (m : BMap) :
    P (Table × Rows) :=
  match stream with
  | [] => pthrow Err.stopIteration
  | brchdata :: rows =>
    pbind (getf brchdata 0) fun f =>
    if termField f = "0" then
      pbind (plog Level.info (LogKind.branchesFound c)) fun _ => ppure (acc, rows)
    else
      pbind (brchStep bus m brchdata) fun rec? =>
        parseBrchGo rows (c + 1)
          (acc ++ (match rec? with | some rec => [rec] | none => [])) bus m

/-- `_parse_nontransformer_branches(reader, bus, busmap)`. -/
def _parse_nontransformer_branches (rows : Rows) (bus : Table) (busmap : BMap) :
    P (Table × Rows) :=
  parseBrchGo rows 0 [] bus busmap

/-- `_parse_transformers`: a stub (`pass`) that consumes nothing. -/
def _parse_transformers (rows : Rows) (branch : Table) (version : Option ℤ)
    (busmap : BMap) : P Rows :=
  ppure rows

/-- `_parse_shunt(reader)`: a stub (`pass`) that consumes nothing. -/
def _parse_shunt (rows : Rows) : P Rows :=
  ppure rows

/-- The assembled case structure. -/
structure Case where
  baseMVA : ℚ
  bus : Table
  gen : Table
  branch : Table
deriving DecidableEq, Repr

/-- `_parse_file(fd, version, delimiter)`.  The call
`gendata = _parse_generators(reader)` omits the required `busmap`
parameter, so Python raises `TypeError` at that call; likewise
`_parse_shunt(reader, busdata)` passes two arguments to a one-parameter
function on the revision 29/30 path.  Both calls are modeled as the
`TypeError` they raise, leaving the rest of the function as dead code. -/
def _parse_file (lines : List String) (version : Option ℤ) (delimiter : Option Char) :
    P Case :=
  pbind (match delimiter with | none => _delimiter lines | some d => ppure d) fun sep =>
  pbind (match version with | none => _version lines sep | some v => ppure v) fun rev =>
  pbind (_parse_header (lines.map (csvSplit sep))) fun hd =>
  pbind (_parse_buses hd.2 rev) fun bs =>
  pbind (_parse_loads bs.2.2 bs.1 bs.2.1 rev) fun ld =>
  pbind (if rev = 31 ∨ rev = 32 then _parse_shunt ld.2 else ppure ld.2) fun rows2 =>
  pbind (pthrow Err.typeError : P Table) fun gendata =>
  pbind (_parse_nontransformer_branches rows2 ld.1 bs.2.1) fun br =>
  pbind (_parse_transformers br.2 br.1 version bs.2.1) fun rows3 =>
  pbind (if rev = 29 ∨ rev = 30 then (pthrow Err.typeError : P Rows)
         else ppure rows3) fun _ =>
  ppure { baseMVA := hd.1, bus := ld.1, gen := gendata, branch := br.1 }

/-- The three shapes `psse2case` accepts: an already-built case dict, a file
path (with `none` standing for a path that cannot be opened), or a stream. -/
inductive CaseSource
  | dict (c : Case)
  | path (opened : Option (List String))
  | stream (lines : List String)

/-- `_parse_file` applied to the file handle variable, which is `None` when
`open` failed: any stream operation on `None` raises `AttributeError`. -/
def _parse_file_fd (fd : Option (List String)) (version : Option ℤ)
    (delimiter : Option Char) : P Case :=
  match fd with
  | none => pthrow Err.attributeError
  | some lines => _parse_file lines version delimiter

/-- `psse2case(casefile, version, delimiter)`.  On the path branch the
handler for a failed `open` logs and schedules `return None`, but the
`finally` clause tests the builtin name `file` (which is never `None`)
and runs `ppc = _parse_file(fd, ...)` with `fd = None`; the resulting
`AttributeError` supersedes the pending return. -/
def psse2case (casefile : CaseSource) (version : Option ℤ) (delimiter : Option Char) :
    P (Option Case) :=
  match casefile with
  | CaseSource.dict c => ppure (some c)
  | CaseSource.path opened =>
    pbind (plog Level.info LogKind.loadingFile) fun _ =>
    (match opened with
     | none =>
       pbind (plog Level.error LogKind.openError) fun _ =>
       pbind (_parse_file_fd none version delimiter) fun ppc => ppure (some ppc)
     | some lines =>
       pbind (_parse_file_fd (some lines) version delimiter) fun ppc => ppure (some ppc))
  | CaseSource.stream lines =>
    pbind (_parse_file lines version delimiter) fun ppc => ppure (some ppc)

/-! ### Concrete inputs shared by several theorems -/

/-- The minimal synthetic file of the round-trip scenario: one meaningful
header row (the header reader skips the next two rows), two buses "1" and
"2", one in-service load at bus "2" with PL=10 and QL=5, no generators, one
branch from "1" to "2", each section closed by its terminator. -/
def roundLines : List String :=
  ["1,100,30", "x", "y",
   "1,B1,132,2,0,0,1,1,1,0",
   "2,B2,132,3,0,0,1,1,1,0",
   "0",
   "2,1,1,1,1,10,5,0,0,0,0,1",
   "0",
   "0",
   "1,2,1,0.01,0.05,0.1,100,110,120,0,0,0,0,1",
   "0"]

/-- `roundLines` after comma splitting. -/
def roundRows : Rows := roundLines.map (csvSplit ',')

/-- The bus table produced from the two bus rows of `roundLines` (loads not
yet applied). -/
def roundBus : Table :=
  [[1, 2, 0, 0, 0, 0, 1, 1, 0, 132, 1, mkRat 11 10, mkRat 9 10],
   [2, 3, 0, 0, 0, 0, 1, 1, 0, 132, 1, mkRat 11 10, mkRat 9 10]]

/-- `roundBus` after the load row for bus "2" has been applied. -/
def roundBusLoaded : Table :=
  [[1, 2, 0, 0, 0, 0, 1, 1, 0, 132, 1, mkRat 11 10, mkRat 9 10],
   [2, 3, 10, 5, 0, 0, 1, 1, 0, 132, 1, mkRat 11 10, mkRat 9 10]]

/-- The bus index table built from the two bus rows of `roundLines`. -/
def roundMap : BMap := [("1", 0), ("B1", 0), ("2", 1), ("B2", 1)]

/-- The record the source builds for the branch row from "1" to "2" of the
round-trip input: column 1 holds 3, which is `bus[1, 1]` — bus 2's type
code — not anything identifying bus 2 (id 2, row index 1). -/
def c3rec : List ℚ :=
  [1, 3, mkRat 1 100, mkRat 1 20, mkRat 1 10, 100, 110, 120, 0, 0, 1, -360, 360]

/-- The record the source builds for an out-of-service generator row at bus
"2": the bus column (index 0) is never assigned and stays 0. -/
def c7rec : List ℚ :=
  [0, 50, 10, 80, -20, mkRat 51 50, 100, 0, 90, 15, 0, 0, 0, 0, 0, 0, 0, 0, 0, 0, 0]


/-! ### Bus section bookkeeping used to state the bus-table claim -/

/-- The raw id of a bus data row (field 0). -/
def busId (r : Row) : String := r.headD ""

/-- The quote-stripped name of a bus data row (field 1). -/
def busName (r : Row) : String := stripQuote (r.getD 1 "")

/-- The keys the bus reader registers, in registration order. -/
def allKeys : Rows → List String
  | [] => []
  | r :: rs => busId r :: busName r :: allKeys rs

/-- The bus-map segment built from `data` when its first row gets index `c`. -/
def busmapSeg : Rows → ℕ → BMap
  | [], _ => []
  | r :: rs, c => (busId r, c) :: (busName r, c) :: busmapSeg rs (c + 1)

/-- The bus index table registered for a whole section. -/
def busmapOf (data : Rows) : BMap := busmapSeg data 0

/-- The record of a well-formed bus row (the `[]` default is never reached
on rows accepted by `busRowOk`). -/
def busRecD (v : ℤ) (r : Row) : List ℚ :=
  match busRec v r with
  | Except.ok x => x
  | Except.error _ => []

/-- A data row the bus reader accepts without raising an exception: id and
name fields present, not a terminator, numeric fields well formed. -/
def busRowOk (v : ℤ) (r : Row) : Bool :=
  decide (2 ≤ r.length) && (termField (busId r) != "0")
    && (match busRec v r with | Except.ok _ => true | Except.error _ => false)

/-- The two bus data rows of the round-trip input, used to instantiate the
bus-section theorem. -/
def busRows2 : Rows :=
  [["1", "B1", "132", "2", "0", "0", "1", "1", "1", "0"],
   ["2", "B2", "132", "3", "0", "0", "1", "1", "1", "0"]]

/-! ### Helper lemmas about the result type -/

@[simp] theorem pbind_ppure {α β : Type} (a : α) (f : α → P β) :
    pbind (ppure a) f = f a := by
  show ([] ++ (f a).1, (f a).2) = f a
  simp

@[simp] theorem pbind_pthrow {α β : Type} (e : Err) (f : α → P β) :
    pbind (pthrow e) f = pthrow e := rfl

@[simp] theorem pbind_plog {β : Type} (lv : Level) (k : LogKind) (f : Unit → P β) :
    pbind (plog lv k) f = (⟨lv, k⟩ :: (f ()).1, (f ()).2) := by
  show ([⟨lv, k⟩] ++ (f ()).1, (f ()).2) = _
  simp

@[simp] theorem pbind_ok {α β : Type} (l : List LogEvent) (a : α) (f : α → P β) :
    pbind (l, Except.ok a) f = (l ++ (f a).1, (f a).2) := rfl

@[simp] theorem pbind_err {α β : Type} (l : List LogEvent) (e : Err) (f : α → P β) :
    pbind (l, Except.error e) f = (l, Except.error e) := rfl

/-! ### C1 — the round-trip scenario -/

/-- C1, counterexample to the claim as stated: on the minimal synthetic
round-trip input the parse entry point does not return a Case at all — it
raises `TypeError` (the `_parse_generators(reader)` call omits the required
`busmap` argument), so no Case with baseMVA = 100 is produced. -/
theorem c1_roundtrip_counterexample :
    (_parse_file roundLines none none).2 = Except.error Err.typeError := by
  decide

/-- C1, amended: on the minimal synthetic input the header yields
baseMVA = 100, the bus reader yields the two bus rows in order with ids "1"
and "2" resolving to indices 0 and 1, and the load reader overwrites bus
2's load fields with [10, 5]; but the parse then dies with `TypeError` at
the generator call, so the entry point returns no Case. -/
theorem c1_roundtrip_amended :
    _parse_header roundRows = ([], Except.ok ((100 : ℚ), roundRows.drop 3))
    ∧ _parse_buses (roundRows.drop 3) 30
        = ([⟨Level.info, LogKind.busesFound 2⟩],
           Except.ok (roundBus, roundMap, roundRows.drop 6))
    ∧ roundBus.length = 2
    ∧ roundMap.lookup "1" = some 0
    ∧ roundMap.lookup "2" = some 1
    ∧ _parse_loads (roundRows.drop 6) roundBus roundMap 30
        = ([⟨Level.info, LogKind.loadsFound 1⟩],
           Except.ok (roundBusLoaded, roundRows.drop 8))
    ∧ (roundBusLoaded.getD 1 []).getD 2 0 = 10
    ∧ (roundBusLoaded.getD 1 []).getD 3 0 = 5
    ∧ (_parse_file roundLines none none).2 = Except.error Err.typeError := by
  refine ⟨?_, ?_, ?_, ?_, ?_, ?_, ?_, ?_, ?_⟩ <;> decide

/-! ### C2 — load rows with a textually false status -/

/-- C2, evaluation at the failing input: a load row whose status field is
the string "0" is nevertheless applied, because `bool(loaddata[2])` is true
for every nonempty string; the bus table changes although the claim says a
zero status leaves it unchanged. -/
theorem c2_status_zero_is_applied :
    _parse_loads [["2", "1", "0", "1", "1", "10", "5", "0", "0", "0", "0", "1"], ["0"]]
        roundBus roundMap 30
      = ([⟨Level.info, LogKind.loadsFound 1⟩], Except.ok (roundBusLoaded, []))
    ∧ roundBusLoaded ≠ roundBus := by
  exact ⟨by decide, by decide⟩

/-! ### C3 — the to-bus column of a branch record -/

/-- C3, evaluation at the failing input: both endpoints of the branch row
resolve and exactly one record is appended with r, x, b, the three ratings,
status, zero tap and shift and ±360 angle limits as claimed — but the
to-bus column holds the to-bus's type code 3 (`bus[tbus, 1]`), which
identifies no bus (bus 2 has id 2 and row index 1). -/
theorem c3_tbus_gets_type_code :
    _parse_nontransformer_branches
        [["1", "2", "1", "0.01", "0.05", "0.1", "100", "110", "120",
          "0", "0", "0", "0", "1"], ["0"]] roundBus roundMap
      = ([⟨Level.info, LogKind.branchesFound 1⟩], Except.ok ([c3rec], []))
    ∧ c3rec.getD 1 0 = 3
    ∧ (roundBus.getD 1 []).getD 0 0 = 2
    ∧ (3 : ℚ) ≠ 2 := by
  refine ⟨?_, ?_, ?_, ?_⟩ <;> decide

/-! ### C7 — generator records -/

/-- C7, evaluation at the failing input: a generator row with status field
"0" (out of service) on resolved bus "2" still produces a record, and the
record's bus column is 0 — not the resolved row index 1 and not the bus id
2 — because the source never assigns `gen[0, 0]`. -/
theorem c7_generator_record :
    _parse_generators
        [["2", "1", "50", "10", "80", "-20", "1.02", "0", "100",
          "0", "0", "0", "0", "0", "0", "100", "90", "15"], ["0"]] roundMap
      = ([⟨Level.info, LogKind.gensFound 1⟩], Except.ok ([c7rec], []))
    ∧ c7rec.getD 0 99 = 0
    ∧ c7rec.getD 7 99 = 0
    ∧ roundMap.lookup "2" = some 1
    ∧ (0 : ℚ) ≠ 1 ∧ (0 : ℚ) ≠ 2 := by
  refine ⟨?_, ?_, ?_, ?_, ?_, ?_⟩ <;> decide

/-! ### C8 — the revision 32 scale warning -/

/-- C8, evaluation at the failing input: a revision 32 load row whose scale
field is exactly "1.0" is applied and still draws the not-rescaled warning,
because `(scale != 0.0) or (scale != 1.0)` is a tautology. -/
theorem c8_scale_one_still_warns :
    _parse_loads
        [["2", "1", "1", "1", "1", "10", "5", "0", "0", "0", "0", "1", "1.0"], ["0"]]
        roundBus roundMap 32
      = ([⟨Level.warning, LogKind.notRescaled "2"⟩,
          ⟨Level.info, LogKind.loadsFound 1⟩],
         Except.ok (roundBusLoaded, [])) := by
  decide

/-! ### C9 — unopenable path -/

/-- C9, evaluation at the failing input: with a path that cannot be opened
the entry point logs the open error but then raises `AttributeError`
instead of returning the scheduled `None`: the `finally` clause tests the
builtin `file` (never `None`) and calls `_parse_file` on the `None`
handle. -/
theorem c9_open_failure_raises :
    psse2case (CaseSource.path none) none none
      = ([⟨Level.info, LogKind.loadingFile⟩, ⟨Level.error, LogKind.openError⟩],
         Except.error Err.attributeError) := by
  decide

/-! ### C10 — the arity error at the generator call -/

theorem pbind_isErr {α β : Type} (x : P α) (f : α → P β)
    (h : ∀ a, ∃ e, (f a).2 = Except.error e) :
    ∃ e, (pbind x f).2 = Except.error e := by
  obtain ⟨l, r⟩ := x
  cases r with
  | error e => exact ⟨e, rfl⟩
  | ok a => exact h a

/-- C10: `_parse_file` calls `_parse_generators(reader)` without the
required `busmap` argument (and, on the revision 29/30 path, the dead call
`_parse_shunt(reader, busdata)` passes one argument too many), so no run of
`_parse_file` ever returns a Case: every run ends in some exception, and a
run that survives header, bus and load parsing — such as the round-trip
input — ends in exactly that `TypeError`. -/
theorem c10_generator_call_arity :
    (∀ (lines : List String) (version : Option ℤ) (delimiter : Option Char),
        ∃ e, (_parse_file lines version delimiter).2 = Except.error e)
    ∧ (_parse_file roundLines none none).2 = Except.error Err.typeError := by
  constructor
  · intro lines version delimiter
    apply pbind_isErr; intro sep
    apply pbind_isErr; intro rev
    apply pbind_isErr; intro hd
    apply pbind_isErr; intro bs
    apply pbind_isErr; intro ld
    apply pbind_isErr; intro rows2
    exact ⟨Err.typeError, rfl⟩
  · decide

/-! ### C4 — the header reader -/

/-- C4, counterexample to the claim as stated: an input whose header row's
first field is "5" — but which has fewer than three rows — fails with
`StopIteration` (stream exhaustion), not with the `assert` failure the spec
calls `FormatError`: the three `reader.next()` calls come before the
check. -/
theorem c4_short_header_counterexample :
    (_parse_file ["5"] none none).2 = Except.error Err.stopIteration
    ∧ Err.stopIteration ≠ Err.assertionError := by
  exact ⟨by decide, by decide⟩

/-- C4, amended: when the three header rows are present, a first field
other than "0"/"1" makes the header reader fail with the `assert` failure
(the spec's `FormatError`); a first field "0"/"1" makes it consume exactly
three rows and return the second field parsed as a real number, provided
that the field is there and parses.  `_parse_file` propagates the failure,
producing no Case. -/
theorem c4_header_amended :
    (∀ (f0 : String) (t : List String) (r1 r2 : Row) (rest : Rows),
        f0 ≠ "0" → f0 ≠ "1" →
        _parse_header ((f0 :: t) :: r1 :: r2 :: rest)
          = ([], Except.error Err.assertionError))
    ∧ (∀ (f0 s : String) (t : List String) (r1 r2 : Row) (rest : Rows) (q : ℚ),
        (f0 = "0" ∨ f0 = "1") → pyFloat? s = some q →
        _parse_header ((f0 :: s :: t) :: r1 :: r2 :: rest)
          = ([], Except.ok (q, rest)))
    ∧ (_parse_file ["5,1,30", "a", "b"] none none).2 = Except.error Err.assertionError := by
  refine ⟨?_, ?_, by decide⟩
  · intro f0 t r1 r2 rest h0 h1
    simp [_parse_header, next, getf, h0, h1, ppure, pthrow]
  · intro f0 s t r1 r2 rest q hf hq
    simp [_parse_header, next, getf, hf, tofloat, hq, ppure]

/-- Instance of `c4_header_amended` at concrete inputs, with every
hypothesis discharged by evaluation. -/
theorem c4_header_amended_witness :
    (("9" : String) ≠ "0" ∧ ("9" : String) ≠ "1"
      ∧ _parse_header [["9"], ["x"], ["y"]] = ([], Except.error Err.assertionError))
    ∧ (pyFloat? "100" = some 100
      ∧ _parse_header [["1", "100", "30"], ["x"], ["y"]]
          = ([], Except.ok ((100 : ℚ), []))) := by
  refine ⟨⟨by decide, by decide, ?_⟩, ⟨by decide, ?_⟩⟩
  · exact c4_header_amended.1 "9" [] ["x"] ["y"] [] (by decide) (by decide)
  · exact c4_header_amended.2.1 "1" "100" ["30"] ["x"] ["y"] [] 100 (Or.inr rfl) (by decide)

/-! ### C5 — the version sniffer -/

theorem getf_lt {r : Row} {i : ℕ} (h : i < r.length) :
    getf r i = ppure (r.getD i "") := by
  have ha : r.getD i "" = (r.get? i).getD "" := by
    rw [List.getD_eq_getElem?_getD, List.get?_eq_getElem?]
  cases hq : r.get? i with
  | none => exact absurd (List.get?_eq_none.mp hq) (Nat.not_le.mpr h)
  | some a =>
    unfold getf
    rw [hq, ha, hq]
    rfl

/-- C5: for a header row whose third field parses (bare, or with its part
before a `/` comment parsed) to a supported revision r, the sniffer returns
exactly r; with fewer than three fields it assumes the default 30; with a
parseable but unsupported revision it warns and returns 30. -/
theorem c5_version_sniffer :
    (∀ (l : String) (rest : List String) (d : Char) (r : ℤ),
        3 ≤ (csvSplit d l).length →
        versionField ((csvSplit d l).getD 2 "") = ([], Except.ok r) →
        r ∈ SUPPORTED_VERSIONS →
        _version (l :: rest) d
          = ([⟨Level.info, LogKind.versionFound r⟩], Except.ok r))
    ∧ (∀ (l : String) (rest : List String) (d : Char),
        (csvSplit d l).length < 3 →
        _version (l :: rest) d
          = ([⟨Level.info, LogKind.versionAssumed 30⟩], Except.ok 30))
    ∧ (∀ (l : String) (rest : List String) (d : Char) (v : ℤ),
        3 ≤ (csvSplit d l).length →
        versionField ((csvSplit d l).getD 2 "") = ([], Except.ok v) →
        v ∉ SUPPORTED_VERSIONS →
        _version (l :: rest) d
          = ([⟨Level.info, LogKind.versionFound v⟩,
              ⟨Level.warning, LogKind.versionUnsupported v⟩], Except.ok 30)) := by
  refine ⟨?_, ?_, ?_⟩
  · intro l rest d r h3 hv hmem
    have hlt : ¬ (csvSplit d l).length < 3 := Nat.not_lt.mpr h3
    have hg : getf (csvSplit d l) 2 = ppure ((csvSplit d l).getD 2 "") :=
      getf_lt (by omega)
    simp only [_version]
    rw [if_neg hlt, hg]
    simp only [pbind_ppure]
    rw [hv]
    simp only [pbind_ok, pbind_plog, List.nil_append]
    rw [if_pos hmem]
    rfl
  · intro l rest d h3
    simp [_version, h3, DEFAULT_VERSION, ppure, plog]
  · intro l rest d v h3 hv hmem
    have hlt : ¬ (csvSplit d l).length < 3 := Nat.not_lt.mpr h3
    have hg : getf (csvSplit d l) 2 = ppure ((csvSplit d l).getD 2 "") :=
      getf_lt (by omega)
    simp only [_version]
    rw [if_neg hlt, hg]
    simp only [pbind_ppure]
    rw [hv]
    simp only [pbind_ok, pbind_plog, List.nil_append]
    rw [if_neg hmem]
    simp [plog, ppure, DEFAULT_VERSION]

/-- Instance of `c5_version_sniffer` at concrete inputs: a revision with a
trailing comment, a short header, and an unsupported revision. -/
theorem c5_version_sniffer_witness :
    (3 ≤ (csvSplit ',' "1,100,30/foo").length
      ∧ versionField ((csvSplit ',' "1,100,30/foo").getD 2 "") = ([], Except.ok 30)
      ∧ (30 : ℤ) ∈ SUPPORTED_VERSIONS
      ∧ _version ["1,100,30/foo"] ','
          = ([⟨Level.info, LogKind.versionFound 30⟩], Except.ok 30))
    ∧ ((csvSplit ' ' "1 100").length < 3
      ∧ _version ["1 100"] ' '
          = ([⟨Level.info, LogKind.versionAssumed 30⟩], Except.ok 30))
    ∧ (versionField ((csvSplit ',' "1,100,99").getD 2 "") = ([], Except.ok 99)
      ∧ (99 : ℤ) ∉ SUPPORTED_VERSIONS
      ∧ _version ["1,100,99"] ','
          = ([⟨Level.info, LogKind.versionFound 99⟩,
              ⟨Level.warning, LogKind.versionUnsupported 99⟩], Except.ok 30)) := by
  refine ⟨⟨by decide, by decide, by decide, ?_⟩, ⟨by decide, ?_⟩,
    ⟨by decide, by decide, ?_⟩⟩
  · exact c5_version_sniffer.1 "1,100,30/foo" [] ',' 30 (by decide) (by decide) (by decide)
  · exact c5_version_sniffer.2.1 "1 100" [] ' ' (by decide)
  · exact c5_version_sniffer.2.2 "1,100,99" [] ',' 99 (by decide) (by decide) (by decide)

/-! ### C6 — the bus section -/

theorem lookup_cons_ne {k a : String} {c : ℕ} {l : BMap} (h : k ≠ a) :
    ((a, c) :: l).lookup k = l.lookup k := by
  simp only [List.lookup]
  rw [beq_false_of_ne h]

theorem lookup_append_none {m1 m2 : BMap} {k : String} (h : m1.lookup k = none) :
    (m1 ++ m2).lookup k = m2.lookup k := by
  induction m1 with
  | nil => rfl
  | cons p m ih =>
    obtain ⟨a, c⟩ := p
    by_cases hk : k = a
    · subst hk
      simp [List.lookup] at h
    · rw [List.cons_append, lookup_cons_ne hk]
      rw [lookup_cons_ne hk] at h
      exact ih h

theorem dset_fresh {m : BMap} {k : String} {c : ℕ} (h : m.lookup k = none) :
    dset m k c = m ++ [(k, c)] := by
  simp [dset, h]

theorem busRowOk_spec {v : ℤ} {r : Row} (hok : busRowOk v r = true) :
    2 ≤ r.length ∧ termField (busId r) ≠ "0" ∧ busRec v r = Except.ok (busRecD v r) := by
  unfold busRowOk at hok
  rw [Bool.and_eq_true, Bool.and_eq_true] at hok
  obtain ⟨⟨ha, hb⟩, hc⟩ := hok
  refine ⟨by simpa using ha, by simpa [bne_iff_ne] using hb, ?_⟩
  cases hr : busRec v r with
  | ok x => simp [busRecD, hr]
  | error e => rw [hr] at hc; simp at hc

theorem busStep_ok {v : ℤ} {r : Row} (hok : busRowOk v r = true) (c : ℕ) (m : BMap) :
    busStep v r c m = ppure (busRecD v r, dset (dset m (busId r) c) (busName r) c) := by
  obtain ⟨hlen, hterm, hrec⟩ := busRowOk_spec hok
  rcases r with _ | ⟨f, r1⟩
  · simp at hlen
  rcases r1 with _ | ⟨g, t1⟩
  · simp at hlen
  have hbody : busStep v (f :: g :: t1) c m
      = (match busRec v (f :: g :: t1) with
         | Except.ok rec => ppure (rec, dset (dset m f c) (stripQuote g) c)
         | Except.error e => pthrow e) := rfl
  rw [hbody, hrec]
  rfl

/-- One full run of the bus section loop over well-formed data rows whose
registered keys are pairwise distinct and fresh for the accumulator map. -/
theorem parseBusesGo_spec (v : ℤ) :
    ∀ (data : Rows) (t : Row) (rest : Rows) (c : ℕ) (acc : Table) (m : BMap),
      (∀ r ∈ data, busRowOk v r = true) →
      (allKeys data).Nodup →
      (∀ k ∈ allKeys data, m.lookup k = none) →
      termField (busId t) = "0" →
      parseBusesGo v (data ++ t :: rest) c acc m
        = ([⟨Level.info, LogKind.busesFound (c + data.length)⟩],
           Except.ok (acc ++ data.map (busRecD v), m ++ busmapSeg data c, rest)) := by
  intro data
  induction data with
  | nil =>
    intro t rest c acc m _ _ _ hterm
    rcases t with _ | ⟨f, t'⟩
    · exact absurd hterm (by decide)
    have hbody : parseBusesGo v ((f :: t') :: rest) c acc m
        = (if termField f = "0" then
             pbind (plog Level.info (LogKind.busesFound c)) fun _ => ppure (acc, m, rest)
           else
             pbind (busStep v (f :: t') c m) fun bm =>
               parseBusesGo v rest (c + 1) (acc ++ [bm.1]) bm.2) := rfl
    have hterm2 : termField f = "0" := hterm
    rw [List.nil_append, hbody, if_pos hterm2]
    simp [plog, ppure, busmapSeg]
  | cons r ds ih =>
    intro t rest c acc m hok hnd hfresh hterm
    have hokr : busRowOk v r = true := hok r (List.mem_cons_self r ds)
    obtain ⟨hlen, htermr, hrec⟩ := busRowOk_spec hokr
    obtain ⟨hid_not, hnd2⟩ := List.nodup_cons.mp hnd
    obtain ⟨hname_not, hnd3⟩ := List.nodup_cons.mp hnd2
    have hfid : m.lookup (busId r) = none := hfresh _ (by simp [allKeys])
    have hfname : m.lookup (busName r) = none := hfresh _ (by simp [allKeys])
    have hne : busId r ≠ busName r := by
      intro h
      exact hid_not (by rw [h]; exact List.mem_cons_self _ _)
    rcases r with _ | ⟨f, r1⟩
    · simp at hlen
    rcases r1 with _ | ⟨g, t1⟩
    · simp at hlen
    have hbody : parseBusesGo v ((f :: g :: t1) :: (ds ++ t :: rest)) c acc m
        = (if termField f = "0" then
             pbind (plog Level.info (LogKind.busesFound c)) fun _ =>
               ppure (acc, m, ds ++ t :: rest)
           else
             pbind (busStep v (f :: g :: t1) c m) fun bm =>
               parseBusesGo v (ds ++ t :: rest) (c + 1) (acc ++ [bm.1]) bm.2) := rfl
    have htermr2 : ¬ termField f = "0" := htermr
    rw [List.cons_append, hbody, if_neg htermr2, busStep_ok hokr, pbind_ppure]
    rw [dset_fresh hfid]
    have hname2 : ((m ++ [(busId (f :: g :: t1), c)]) :
        BMap).lookup (busName (f :: g :: t1)) = none := by
      rw [lookup_append_none hfname, lookup_cons_ne (Ne.symm hne)]
      rfl
    rw [dset_fresh hname2]
    have hfresh2 : ∀ k ∈ allKeys ds,
        (((m ++ [(busId (f :: g :: t1), c)]) ++ [(busName (f :: g :: t1), c)]) :
          BMap).lookup k = none := by
      intro k hk
      have hkid : k ≠ busId (f :: g :: t1) := by
        intro h
        exact hid_not (by rw [← h]; exact List.mem_cons_of_mem _ hk)
      have hkname : k ≠ busName (f :: g :: t1) := by
        intro h
        exact hname_not (h ▸ hk)
      have h1 : ((m ++ [(busId (f :: g :: t1), c)]) : BMap).lookup k = none := by
        rw [lookup_append_none (hfresh k (by simp [allKeys, hk])), lookup_cons_ne hkid]
        rfl
      rw [lookup_append_none h1, lookup_cons_ne hkname]
      rfl
    rw [ih t rest (c + 1) (acc ++ [busRecD v (f :: g :: t1)]) _
      (fun r' hr' => hok r' (List.mem_cons_of_mem _ hr')) hnd3 hfresh2 hterm]
    have hc : c + 1 + ds.length = c + (ds.length + 1) := by omega
    simp [busmapSeg, List.append_assoc, hc]

theorem busmapSeg_length : ∀ (data : Rows) (c : ℕ),
    (busmapSeg data c).length = 2 * data.length := by
  intro data
  induction data with
  | nil => intro c; rfl
  | cons r ds ih =>
    intro c
    simp [busmapSeg, ih]
    omega

theorem mem_allKeys : ∀ {data : Rows} {j : ℕ}, j < data.length →
    busId (data.getD j []) ∈ allKeys data ∧ busName (data.getD j []) ∈ allKeys data := by
  intro data
  induction data with
  | nil => intro j h; simp at h
  | cons r ds ih =>
    intro j hj
    cases j with
    | zero => simp [allKeys]
    | succ j =>
      have hj' : j < ds.length := by simpa using hj
      have hmem := ih hj'
      rw [List.getD_cons_succ]
      exact ⟨List.mem_cons_of_mem _ (List.mem_cons_of_mem _ hmem.1),
        List.mem_cons_of_mem _ (List.mem_cons_of_mem _ hmem.2)⟩

theorem busmapSeg_lookup : ∀ (data : Rows), (allKeys data).Nodup →
    ∀ (c j : ℕ), j < data.length →
      (busmapSeg data c).lookup (busId (data.getD j [])) = some (c + j)
      ∧ (busmapSeg data c).lookup (busName (data.getD j [])) = some (c + j) := by
  intro data
  induction data with
  | nil => intro _ c j h; simp at h
  | cons r ds ih =>
    intro hnd c j hj
    obtain ⟨hid_not, hnd2⟩ := List.nodup_cons.mp hnd
    obtain ⟨hname_not, hnd3⟩ := List.nodup_cons.mp hnd2
    have hne : busId r ≠ busName r := by
      intro h
      exact hid_not (by rw [h]; exact List.mem_cons_self _ _)
    cases j with
    | zero =>
      rw [List.getD_cons_zero]
      constructor
      · simp [busmapSeg, List.lookup]
      · rw [show busmapSeg (r :: ds) c
            = (busId r, c) :: (busName r, c) :: busmapSeg ds (c + 1) from rfl]
        rw [lookup_cons_ne (Ne.symm hne)]
        simp [List.lookup]
    | succ j =>
      have hj' : j < ds.length := by simpa using hj
      have hmem := mem_allKeys hj'
      have hkid : busId (ds.getD j []) ≠ busId r := by
        intro h
        exact hid_not (by rw [← h]; exact List.mem_cons_of_mem _ hmem.1)
      have hkid2 : busId (ds.getD j []) ≠ busName r := by
        intro h
        exact hname_not (h ▸ hmem.1)
      have hkname : busName (ds.getD j []) ≠ busId r := by
        intro h
        exact hid_not (by rw [← h]; exact List.mem_cons_of_mem _ hmem.2)
      have hkname2 : busName (ds.getD j []) ≠ busName r := by
        intro h
        exact hname_not (h ▸ hmem.2)
      have hrec := ih hnd3 (c + 1) j hj'
      rw [List.getD_cons_succ]
      rw [show busmapSeg (r :: ds) c
          = (busId r, c) :: (busName r, c) :: busmapSeg ds (c + 1) from rfl]
      constructor
      · rw [lookup_cons_ne hkid, lookup_cons_ne hkid2, hrec.1]
        congr 1
        omega
      · rw [lookup_cons_ne hkname, lookup_cons_ne hkname2, hrec.2]
        congr 1
        omega

/-- C6, amended: for a bus section of N well-formed data rows followed by a
terminator, the bus table has exactly N rows in input order; and provided
the 2N registered key strings (each row's id and quote-stripped name) are
pairwise distinct, the Bus Index Table has exactly 2N entries, each mapping
id and name of the j-th bus to j.  (Without distinctness the dict-style
table coalesces entries, see the counterexample.) -/
theorem c6_bus_section_amended (v : ℤ) (data rest : Rows) (t : Row)
    (hok : ∀ r ∈ data, busRowOk v r = true)
    (hnd : (allKeys data).Nodup)
    (hterm : termField (busId t) = "0") :
    _parse_buses (data ++ t :: rest) v
        = ([⟨Level.info, LogKind.busesFound data.length⟩],
           Except.ok (data.map (busRecD v), busmapOf data, rest))
    ∧ (data.map (busRecD v)).length = data.length
    ∧ (busmapOf data).length = 2 * data.length
    ∧ ∀ j, j < data.length →
        (busmapOf data).lookup (busId (data.getD j [])) = some j
        ∧ (busmapOf data).lookup (busName (data.getD j [])) = some j := by
  have hmain := parseBusesGo_spec v data t rest 0 [] [] hok hnd (fun k hk => rfl) hterm
  refine ⟨?_, by simp, busmapSeg_length data 0, ?_⟩
  · show parseBusesGo v (data ++ t :: rest) 0 [] [] = _
    rw [hmain]
    simp [busmapOf]
  · intro j hj
    have := busmapSeg_lookup data hnd 0 j hj
    simpa [busmapOf] using this

/-- Instance of `c6_bus_section_amended` at the two bus rows of the
round-trip input. -/
theorem c6_bus_section_witness :
    _parse_buses (busRows2 ++ [["0"]]) 30
        = ([⟨Level.info, LogKind.busesFound 2⟩],
           Except.ok (busRows2.map (busRecD 30), busmapOf busRows2, []))
    ∧ (busmapOf busRows2).length = 2 * busRows2.length
    ∧ (busmapOf busRows2).lookup (busId (busRows2.getD 0 [])) = some 0
    ∧ (busmapOf busRows2).lookup (busName (busRows2.getD 1 [])) = some 1 := by
  have h := c6_bus_section_amended 30 busRows2 [] ["0"] (by decide) (by decide) (by decide)
  exact ⟨by simpa using h.1, h.2.2.1, (h.2.2.2 0 (by decide)).1, (h.2.2.2 1 (by decide)).2⟩

/-- C6, counterexample to the claim as stated: a single bus row whose id
"1" and name "1" coincide yields a one-row bus table but a Bus Index Table
with a single entry, not 2N = 2 — Python dict assignment coalesces the two
registrations. -/
theorem c6_duplicate_key_counterexample :
    _parse_buses [["1", "1", "132", "2", "0", "0", "1", "1", "1", "0"], ["0"]] 30
      = ([⟨Level.info, LogKind.busesFound 1⟩],
         Except.ok ([[1, 2, 0, 0, 0, 0, 1, 1, 0, 132, 1, mkRat 11 10, mkRat 9 10]],
           [("1", 0)], []))
    ∧ ([("1", (0 : ℕ))] : BMap).length ≠ 2 * 1 := by
  exact ⟨by decide, by decide⟩

end PYPOWER
